import Mathlib

/-!
Verification development for the SeedForge deterministic PRNG library
(src/seedforge.js).  The JavaScript source is shallowly embedded: JS
numbers are modelled exactly (naturals / integers / rationals).  All
bitwise operations in the source act on the 32-bit residue of a value,
so they are modelled on residues mod 2^32; IEEE-754 double rounding
(which in the source can only affect values beyond 2^53 and the cross
term of PCG32's 64-bit multiply) is abstracted by exact arithmetic —
every property proved here is structural or a range bound that is
insensitive to that rounding.  Transcendental math functions
(Math.sqrt, Math.log, Math.pow) are taken as oracle parameters
(`MathLib`), so theorems quantify over every possible float behaviour
of those functions.
-/

namespace SeedForge

/-- The modulus 2^32 of all 32-bit wrapping arithmetic in the source. -/
def M32 : ℕ := 4294967296

/-- Unsigned residue of `Math.imul(a, b)`: 32-bit wrapping multiply.
(`Math.imul` returns the signed reinterpretation; every use in the
source either feeds the result into further bitwise operations or a
final `>>> 0`, so only the residue matters.) -/
def imul32 (a b : ℕ) : ℕ := (a * b) % M32

/-- JS `ToInt32`: reinterpret the 32-bit residue of `n` as a signed
32-bit integer. -/
def toInt32 (n : ℕ) : ℤ :=
  if n % M32 < 2147483648 then (n % M32 : ℤ) else (n % M32 : ℤ) - (M32 : ℤ)

/-- JS `x >>> 0` applied to a (possibly negative) integer value:
the unsigned 32-bit residue. -/
def u32ofInt (z : ℤ) : ℕ := (z % (M32 : ℤ)).toNat

-- ============================================================
-- SEEDING UTILITIES  (seedforge.js lines 22-54)
-- ============================================================

/-- JS `stringToSeed(str)`: rolling hash `hash = ((hash << 5) - hash) + char`
with 32-bit wrap (`hash & hash`), returned unsigned (`>>> 0`).
All intermediate signed wraps only change the value by multiples of
2^32, so the running 32-bit residue is maintained directly. -/
def stringToSeed (str : String) : ℕ :=
  str.data.foldl (fun hash c => (((hash <<< 5) - hash) + c.toNat) % M32) 0

/-- One character step of `cyrb128` (lines 41-47).  The four statements
execute sequentially, so `h4` sees the updated `h1`. -/
def cyrbStep (h : ℕ × ℕ × ℕ × ℕ) (k : ℕ) : ℕ × ℕ × ℕ × ℕ :=
  let (h1, h2, h3, h4) := h
  let h1' := h2 ^^^ imul32 (h1 ^^^ k) 597399067
  let h2' := h3 ^^^ imul32 (h2 ^^^ k) 2869860233
  let h3' := h4 ^^^ imul32 (h3 ^^^ k) 951274213
  let h4' := h1' ^^^ imul32 (h4 ^^^ k) 2716044179
  (h1', h2', h3', h4')

/-- JS `cyrb128(str)` (lines 39-54): four accumulators mixed per character,
then an avalanche pass and a cross-XOR, all sequential. -/
def cyrb128 (str : String) : ℕ × ℕ × ℕ × ℕ :=
  let (h1, h2, h3, h4) :=
    str.data.foldl (fun h c => cyrbStep h c.toNat)
      (1779033703, 3144134277, 1013904242, 2773480762)
  let h1a := imul32 (h3 ^^^ (h1 >>> 18)) 597399067
  let h2a := imul32 (h4 ^^^ (h2 >>> 22)) 2869860233
  let h3a := imul32 (h1a ^^^ (h3 >>> 17)) 951274213
  let h4a := imul32 (h2a ^^^ (h4 >>> 19)) 2716044179
  let h1f := h1a ^^^ (h2a ^^^ h3a ^^^ h4a)
  let h2f := h2a ^^^ h1f
  let h3f := h3a ^^^ h1f
  let h4f := h4a ^^^ h1f
  (h1f, h2f, h3f, h4f)

/-- A caller-supplied seed: a string or an integer. -/
inductive SeedV where
  | str (s : String)
  | num (n : ℤ)
deriving DecidableEq

/-- JS `String(seed)`, used by the cyrb128-seeded generators. -/
def seedStr : SeedV → String
  | .str s => s
  | .num n => toString n

/-- JS `typeof seed === 'string' ? stringToSeed(seed) : seed >>> 0`,
used by Mulberry32, PCG32 and LCG. -/
def seedU32 : SeedV → ℕ
  | .str s => stringToSeed s
  | .num n => u32ofInt n

-- ============================================================
-- PRNG ALGORITHMS  (seedforge.js lines 81-514)
-- ============================================================

/-- The closed set of six bit-generator algorithms selectable through
the `setSeed` switch (lines 533-562). -/
inductive Alg where
  | mulberry32 | xoshiro128 | xorshift128 | pcg32 | sfc32 | lcg
deriving DecidableEq

/-- The `name` field each bit-generator class assigns in its
constructor. -/
def nameOf : Alg → String
  | .mulberry32 => "mulberry32"
  | .xoshiro128 => "xoshiro128**"
  | .xorshift128 => "xorshift128+"
  | .pcg32 => "pcg32"
  | .sfc32 => "sfc32"
  | .lcg => "lcg"

/-- The complete mutable state of one bit-generator object, one
constructor per class.

`broken alg` models an object of class `alg` whose state fields were
set to `undefined` by `setState` with a snapshot of a foreign shape
(the source performs no validation, see lines 106-109, 193-196, …);
draws from such an object go through JS `NaN`/`undefined` coercions.
No claim evaluates draws on a broken generator: the well-formedness
predicate `WF` below excludes it. -/
inductive Gen where
  | mulberry (state seed : ℕ)
  | xoshiro (s0 s1 s2 s3 : ℕ) (originalSeed : SeedV)
  | xorshift (s0 s1 s2 s3 : ℕ) (originalSeed : SeedV)
  | pcg (stateHi stateLo incHi incLo : ℕ) (originalSeed : SeedV)
      (originalSequence : ℕ)
  | sfc (a b c counter : ℕ) (originalSeed : SeedV)
  | lcg (state seed a c m : ℕ)
  | broken (alg : Alg)
deriving DecidableEq

/-- The `name` property of the generator object (set by its
constructor and never reassigned, so a `broken` object keeps the name
of its class). -/
def genName : Gen → String
  | .mulberry _ _ => "mulberry32"
  | .xoshiro _ _ _ _ _ => "xoshiro128**"
  | .xorshift _ _ _ _ _ => "xorshift128+"
  | .pcg _ _ _ _ _ _ => "pcg32"
  | .sfc _ _ _ _ _ => "sfc32"
  | .lcg _ _ _ _ _ => "lcg"
  | .broken a => nameOf a

/-- The class of a generator object. -/
def algOf : Gen → Alg
  | .mulberry _ _ => .mulberry32
  | .xoshiro _ _ _ _ _ => .xoshiro128
  | .xorshift _ _ _ _ _ => .xorshift128
  | .pcg _ _ _ _ _ _ => .pcg32
  | .sfc _ _ _ _ _ => .sfc32
  | .lcg _ _ _ _ _ => .lcg
  | .broken a => a

-- ----- Mulberry32 (lines 81-120) -----

/-- JS `Mulberry32.nextInt` (lines 95-100).  `this.state += 0x6D2B79F5`
does not wrap (JS float addition), so the stored state is the exact
sum; all further operations act on its 32-bit residue. -/
def mulberryNext (state : ℕ) : ℕ × ℕ :=
  let state' := state + 0x6D2B79F5
  let t0 := state' % M32
  let t1 := imul32 (t0 ^^^ (t0 >>> 15)) (t0 ||| 1)
  let t2 := t1 ^^^ ((t1 + imul32 (t1 ^^^ (t1 >>> 7)) (t1 ||| 61)) % M32)
  ((t2 ^^^ (t2 >>> 14)) % M32, state')

-- ----- Xoshiro128** (lines 126-211) -----

/-- JS `_rotl(x, k)` (line 137) on the unsigned 32-bit view. -/
def rotl32 (x k : ℕ) : ℕ := ((x <<< k) % M32) ||| ((x % M32) >>> (32 - k))

/-- JS `Xoshiro128SS.nextInt` (lines 145-158): result from the old `s[1]`,
then the rotate-shift-xor state update.  Writes into the `Uint32Array`
wrap mod 2^32. -/
def xoshiroNext (s0 s1 s2 s3 : ℕ) : ℕ × (ℕ × ℕ × ℕ × ℕ) :=
  let result := imul32 (rotl32 (imul32 s1 5) 7) 9
  let t := (s1 <<< 9) % M32
  let s2a := s2 ^^^ s0
  let s3a := s3 ^^^ s1
  let s1a := s1 ^^^ s2a
  let s0a := s0 ^^^ s3a
  let s2b := s2a ^^^ t
  let s3b := rotl32 s3a 11
  (result, (s0a, s1a, s2b, s3b))

-- ----- Xorshift128+ (32-bit optimized) (lines 217-284) -----

/-- JS `Xorshift128Plus.nextInt` (lines 244-257): shift-register update
with word rotation; the new `s[0]` is both stored and returned. -/
def xorshiftNext (s0 s1 s2 s3 : ℕ) : ℕ × (ℕ × ℕ × ℕ × ℕ) :=
  let t := s3
  let s := s0
  let t1 := t ^^^ ((t <<< 11) % M32)
  let t2 := t1 ^^^ (t1 >>> 8)
  let new0 := (t2 ^^^ s ^^^ (s >>> 19)) % M32
  (new0, (new0, s, s1, s2))

-- ----- PCG32 (lines 291-412) -----

/-- JS `PCG32._add64(lo, hi)` (lines 312-317): 64-bit add via 32-bit
halves with explicit carry detection. -/
def pcgAdd64 (stateHi stateLo lo hi : ℕ) : ℕ × ℕ :=
  let newLo := (stateLo + lo) % M32
  let carry := if newLo < stateLo then 1 else 0
  (  (stateHi + hi + carry) % M32, newLo)

/-- JS `PCG32._multiply` (lines 321-348): multiply the 64-bit state by
6364136223846793005 using 32-bit parts.  The `if (mid1 < mid2)`
carry branch is kept although, with exact arithmetic, `mid1` has just
been increased past `mid2` and the branch cannot fire. -/
def pcgMultiply (stateHi stateLo : ℕ) : ℕ × ℕ :=
  let multHi := 0x5851F42D
  let multLo := 0x4C957F2D
  let a := stateLo >>> 16
  let b := stateLo &&& 0xFFFF
  let c := multLo >>> 16
  let d := multLo &&& 0xFFFF
  let low := b * d
  let mid1 := a * d
  let mid2 := b * c
  let high := a * c
  let mid1a := mid1 + (low >>> 16)
  let mid1b := mid1a + mid2
  let high' := if mid1b < mid2 then high + 0x10000 else high
  let newLo := (low &&& 0xFFFF) ||| ((mid1b &&& 0xFFFF) <<< 16)
  let newHi := high' + (mid1b >>> 16)
  let crossHi := (stateLo * multHi + stateHi * multLo) % M32
  ((newHi + crossHi) % M32, newLo % M32)

/-- JS `PCG32.nextInt` (lines 350-363): output from the old state via
xorshift plus variable rotation, then advance
`state = state * mult + inc`. -/
def pcgNext (stateHi stateLo incHi incLo : ℕ) : ℕ × (ℕ × ℕ) :=
  let oldHi := stateHi
  let oldLo := stateLo
  let (h1, l1) := pcgMultiply stateHi stateLo
  let (h2, l2) := pcgAdd64 h1 l1 incLo incHi
  let xorshifted := (((oldHi >>> 18) ^^^ oldHi) >>> 27) ^^^ (oldLo >>> 27)
  let rot := oldHi >>> 27
  (((xorshifted >>> rot) ||| ((xorshifted <<< ((32 - rot) % 32)) % M32)) % M32,
    (h2, l2))

/-- The PCG32 constructor body (lines 291-309) and `reset`
(lines 389-402): zero state, increment from the sequence number, one
warm-up step, add the numeric seed, second warm-up step.  Returns
`(stateHi, stateLo, incHi, incLo)`. -/
def pcgInit (seed : SeedV) (sequence : ℕ) : ℕ × ℕ × ℕ × ℕ :=
  let numSeed := seedU32 seed
  let incHi := 0
  let incLo := ((sequence <<< 1) ||| 1) % M32
  let (_, (h1, l1)) := pcgNext 0 0 incHi incLo
  let (h2, l2) := pcgAdd64 h1 l1 numSeed 0
  let (_, (h3, l3)) := pcgNext h2 l2 incHi incLo
  (h3, l3, incHi, incLo)

-- ----- SFC32 (lines 418-472) -----

/-- JS `SFC32.nextInt` (lines 428-435).  `counter++` is unwrapped JS float
addition (modelled exactly); `c << 3` goes through `ToInt32`, whose
difference from `8c mod 2^32` is a multiple of 2^32 absorbed by the
final `>>> 0`. -/
def sfcNext (a b c counter : ℕ) : ℕ × (ℕ × ℕ × ℕ × ℕ) :=
  let t := ((a + b + counter) % M32)
  let counter' := counter + 1
  let a' := (b % M32) ^^^ ((b % M32) >>> 9)
  let b' := u32ofInt ((c : ℤ) + toInt32 ((c <<< 3) % M32))
  let crot := ((c <<< 21) % M32) ||| ((c % M32) >>> 11)
  let c' := (crot + t) % M32
  (t, (a', b', c', counter'))

-- ----- LCG (lines 478-514) -----

/-- JS `LCG.nextInt` (lines 488-491): `state = (a*state + c) % m`,
returned unsigned. -/
def lcgNext (state a c m : ℕ) : ℕ × ℕ :=
  let state' := (a * state + c) % m
  (state' % M32, state')

-- ----- dispatch -----

/-- JS `nextInt()` on any generator object: the drawn uint32 and the
updated object.  A `broken` object draws through `NaN` coercions; the
value is modelled abstractly as 0 and no claim depends on it (`WF`
excludes broken generators). -/
def stepInt : Gen → ℕ × Gen
  | .mulberry state seed =>
      let (v, state') := mulberryNext state
      (v, .mulberry state' seed)
  | .xoshiro s0 s1 s2 s3 os =>
      let (v, (a, b, c, d)) := xoshiroNext s0 s1 s2 s3
      (v, .xoshiro a b c d os)
  | .xorshift s0 s1 s2 s3 os =>
      let (v, (a, b, c, d)) := xorshiftNext s0 s1 s2 s3
      (v, .xorshift a b c d os)
  | .pcg hi lo ih il os oseq =>
      let (v, (hi', lo')) := pcgNext hi lo ih il
      (v, .pcg hi' lo' ih il os oseq)
  | .sfc a b c k os =>
      let (v, (a', b', c', k')) := sfcNext a b c k
      (v, .sfc a' b' c' k' os)
  | .lcg state seed a c m =>
      let (v, state') := lcgNext state a c m
      (v, .lcg state' seed a c m)
  | .broken alg => (0, .broken alg)

/-- JS `next()` on any generator object: every class returns
`nextInt() / 4294967296` except LCG, which divides by its own
modulus `m` (line 494). -/
def nextFloatG (g : Gen) : ℚ × Gen :=
  match g with
  | .lcg _ _ _ _ m => (((stepInt g).1 : ℚ) / (m : ℚ), (stepInt g).2)
  | _ => (((stepInt g).1 : ℚ) / (M32 : ℚ), (stepInt g).2)

/-- The constructor of each bit-generator class, as dispatched by the
`setSeed` switch (each case constructs `new Class(seed)`; PCG32 gets
the default `sequence = 1`). -/
def mkGen (a : Alg) (seed : SeedV) : Gen :=
  match a with
  | .mulberry32 =>
      let s := seedU32 seed
      .mulberry s s
  | .xoshiro128 =>
      let (a, b, c, d) := cyrb128 (seedStr seed)
      .xoshiro a b c d seed
  | .xorshift128 =>
      let (a, b, c, d) := cyrb128 (seedStr seed)
      .xorshift a b c d seed
  | .pcg32 =>
      let (hi, lo, ih, il) := pcgInit seed 1
      .pcg hi lo ih il seed 1
  | .sfc32 =>
      let (a, b, c, d) := cyrb128 (seedStr seed)
      .sfc a b c d seed
  | .lcg =>
      let s := seedU32 seed
      .lcg s s 1664525 1013904223 4294967296

-- ============================================================
-- STATE PROTOCOL OF THE BIT-GENERATORS
-- ============================================================

/-- The `generatorState` payload each class's `getState` emits, one
shape per class (the xoshiro and xorshift shapes carry the same field
names `s`/`originalSeed` but are distinct snapshots, so they are kept
apart to record which algorithm produced a snapshot). -/
inductive Snap where
  | mulberry (state seed : ℕ)
  | xoshiro (s0 s1 s2 s3 : ℕ) (originalSeed : SeedV)
  | xorshift (s0 s1 s2 s3 : ℕ) (originalSeed : SeedV)
  | pcg (stateHi stateLo incHi incLo : ℕ) (originalSeed : SeedV)
      (originalSequence : ℕ)
  | sfc (a b c counter : ℕ) (originalSeed : SeedV)
  | lcg (state seed a c m : ℕ)
deriving DecidableEq

/-- Which algorithm produced a snapshot (the shape tag). -/
def snapAlg : Snap → Alg
  | .mulberry _ _ => .mulberry32
  | .xoshiro _ _ _ _ _ => .xoshiro128
  | .xorshift _ _ _ _ _ => .xorshift128
  | .pcg _ _ _ _ _ _ => .pcg32
  | .sfc _ _ _ _ _ => .sfc32
  | .lcg _ _ _ _ _ => .lcg

/-- JS `getState()` of each class (lines 102-104, 186-191, 259-264,
369-378, 441-446, 497-499): a read-only snapshot of the current
fields.  On a `broken` object the fields are `undefined`; the
snapshot is modelled with zeros and is excluded from every claim
by `WF`. -/
def getStateG : Gen → Snap
  | .mulberry state seed => .mulberry state seed
  | .xoshiro s0 s1 s2 s3 os => .xoshiro s0 s1 s2 s3 os
  | .xorshift s0 s1 s2 s3 os => .xorshift s0 s1 s2 s3 os
  | .pcg hi lo ih il os oseq => .pcg hi lo ih il os oseq
  | .sfc a b c k os => .sfc a b c k os
  | .lcg state seed a c m => .lcg state seed a c m
  | .broken .mulberry32 => .mulberry 0 0
  | .broken .xoshiro128 => .xoshiro 0 0 0 0 (.num 0)
  | .broken .xorshift128 => .xorshift 0 0 0 0 (.num 0)
  | .broken .pcg32 => .pcg 0 0 0 0 (.num 0) 0
  | .broken .sfc32 => .sfc 0 0 0 0 (.num 0)
  | .broken .lcg => .lcg 0 0 0 0 0

/-- JS `setState(savedState)` of each class.  None of the classes
validates the payload:

* `Mulberry32.setState` (106-109) copies `savedState.state` and
  `savedState.seed`; both fields exist only in the mulberry and lcg
  shapes — any other shape leaves the object with `undefined` fields
  (`broken`).
* `Xoshiro128SS.setState` / `Xorshift128Plus.setState` (193-196,
  266-269) rebuild `new Uint32Array(savedState.s)` (coercing each
  entry mod 2^32) and copy `originalSeed`; the `s` field exists in
  both the xoshiro and xorshift shapes, so either is silently
  accepted; other shapes give an empty array (`broken`).
* `PCG32.setState` (380-387) copies its six fields, present only in
  the pcg shape.
* `SFC32.setState` (448-454) copies `a,b,c,counter,originalSeed`,
  present together only in the sfc shape (the lcg shape has `a`,`c`
  but not `b`,`counter`, leaving `undefined` fields).
* `LCG.setState` (501-503) is `Object.assign(this, savedState)`:
  fields present in the snapshot overwrite, absent fields keep their
  value, and foreign-named fields become extra properties the LCG
  never reads — so every shape is accepted without error and without
  `undefined` fields.

The receiving object's class is fixed (its methods are), hence the
dispatch on `g` first. -/
def setStateG (g : Gen) (snap : Snap) : Gen :=
  match g with
  | .mulberry _ _ =>
      match snap with
      | .mulberry state seed => .mulberry state seed
      | .lcg state seed _ _ _ => .mulberry state seed
      | _ => .broken .mulberry32
  | .xoshiro _ _ _ _ _ =>
      match snap with
      | .xoshiro a b c d os => .xoshiro (a % M32) (b % M32) (c % M32) (d % M32) os
      | .xorshift a b c d os => .xoshiro (a % M32) (b % M32) (c % M32) (d % M32) os
      | _ => .broken .xoshiro128
  | .xorshift _ _ _ _ _ =>
      match snap with
      | .xoshiro a b c d os => .xorshift (a % M32) (b % M32) (c % M32) (d % M32) os
      | .xorshift a b c d os => .xorshift (a % M32) (b % M32) (c % M32) (d % M32) os
      | _ => .broken .xorshift128
  | .pcg _ _ _ _ _ _ =>
      match snap with
      | .pcg hi lo ih il os oseq => .pcg hi lo ih il os oseq
      | _ => .broken .pcg32
  | .sfc _ _ _ _ _ =>
      match snap with
      | .sfc a b c k os => .sfc a b c k os
      | _ => .broken .sfc32
  | .lcg state seed a c m =>
      match snap with
      | .lcg state' seed' a' c' m' => .lcg state' seed' a' c' m'
      | .mulberry state' seed' => .lcg state' seed' a c m
      | .sfc a' _ c' _ _ => .lcg state seed a' c' m
      | _ => .lcg state seed a c m
  | .broken alg =>
      -- a broken object keeps its class methods, so setState behaves
      -- as for any object of that class (unreachable in the claims:
      -- the facade's setState always calls it on a fresh generator)
      match alg with
      | .mulberry32 =>
          match snap with
          | .mulberry state seed => .mulberry state seed
          | .lcg state seed _ _ _ => .mulberry state seed
          | _ => .broken .mulberry32
      | .xoshiro128 =>
          match snap with
          | .xoshiro a b c d os => .xoshiro (a % M32) (b % M32) (c % M32) (d % M32) os
          | .xorshift a b c d os => .xoshiro (a % M32) (b % M32) (c % M32) (d % M32) os
          | _ => .broken .xoshiro128
      | .xorshift128 =>
          match snap with
          | .xoshiro a b c d os => .xorshift (a % M32) (b % M32) (c % M32) (d % M32) os
          | .xorshift a b c d os => .xorshift (a % M32) (b % M32) (c % M32) (d % M32) os
          | _ => .broken .xorshift128
      | .pcg32 =>
          match snap with
          | .pcg hi lo ih il os oseq => .pcg hi lo ih il os oseq
          | _ => .broken .pcg32
      | .sfc32 =>
          match snap with
          | .sfc a b c k os => .sfc a b c k os
          | _ => .broken .sfc32
      | .lcg => .broken .lcg

/-- JS `reset()` of each class (lines 111-113, 198-204, 271-277, 389-402,
456-462, 505-507): re-derive the state exactly as the constructor
would, from the retained seed fields. -/
def resetG : Gen → Gen
  | .mulberry _ seed => .mulberry seed seed
  | .xoshiro _ _ _ _ os =>
      let (a, b, c, d) := cyrb128 (seedStr os)
      .xoshiro a b c d os
  | .xorshift _ _ _ _ os =>
      let (a, b, c, d) := cyrb128 (seedStr os)
      .xorshift a b c d os
  | .pcg _ _ _ _ os oseq =>
      let (hi, lo, ih, il) := pcgInit os oseq
      .pcg hi lo ih il os oseq
  | .sfc _ _ _ _ os =>
      let (a, b, c, d) := cyrb128 (seedStr os)
      .sfc a b c d os
  | .lcg _ seed a c m => .lcg seed seed a c m
  | .broken alg => .broken alg

/-- JS `clone()` of each class (lines 115-119, 206-210, 279-283, 404-411,
464-471, 509-513): construct a fresh object from the retained seed,
then copy the live state fields.  Mulberry32 and LCG pass the numeric
`seed` field back through `seed >>> 0`. -/
def cloneG : Gen → Gen
  | .mulberry state seed => .mulberry state (seed % M32)
  | .xoshiro s0 s1 s2 s3 os => .xoshiro s0 s1 s2 s3 os
  | .xorshift s0 s1 s2 s3 os => .xorshift s0 s1 s2 s3 os
  | .pcg hi lo ih il os oseq => .pcg hi lo ih il os oseq
  | .sfc a b c k os => .sfc a b c k os
  | .lcg state seed a c m => .lcg state (seed % M32) a c m
  | .broken alg => .broken alg

/-- Reachable generator states: the fields actually stored by a
constructor, a draw, or a genuine same-shape `setState`.  All
`Uint32Array`-backed words are below 2^32, the numeric seeds of
Mulberry32/LCG were stored through `>>> 0`, and the LCG modulus is
positive.  `broken` objects (fields `undefined`) are excluded. -/
def WF : Gen → Prop
  | .mulberry _ seed => seed < M32
  | .xoshiro s0 s1 s2 s3 _ => s0 < M32 ∧ s1 < M32 ∧ s2 < M32 ∧ s3 < M32
  | .xorshift s0 s1 s2 s3 _ => s0 < M32 ∧ s1 < M32 ∧ s2 < M32 ∧ s3 < M32
  | .pcg hi lo ih il _ _ => hi < M32 ∧ lo < M32 ∧ ih < M32 ∧ il < M32
  | .sfc a b c _ _ => a < M32 ∧ b < M32 ∧ c < M32
  | .lcg _ seed _ _ m => seed < M32 ∧ 0 < m
  | .broken _ => False

instance : DecidablePred WF := fun g => by
  unfold WF
  cases g <;> infer_instance

-- ============================================================
-- THE PRNG FACADE  (seedforge.js lines 520-1101)
-- ============================================================

/-- A `PRNG` facade instance: one generator object plus the Box-Muller
spare cache (`_spareNormal`, `_hasSpareNormal`).  After a spare is
consumed, `_spareNormal` keeps its numeric value while the flag is
cleared, so the two fields are independent. -/
structure Facade where
  gen : Gen
  spareNormal : Option ℚ
  hasSpareNormal : Bool
deriving DecidableEq

/-- The `normalCache` part of the persisted state (lines 1056-1059). -/
structure NormalCacheS where
  spare : Option ℚ
  hasSpare : Bool
deriving DecidableEq

/-- The full persisted payload of `PRNG.getState` (lines 1052-1061). -/
structure SavedState where
  algorithm : String
  generatorState : Snap
  normalCache : NormalCacheS
deriving DecidableEq

/-- JS `algorithm.toLowerCase()`, character-wise (ASCII case folding;
the recognized keys are all ASCII). -/
def jsToLower (s : String) : String := String.mk (s.data.map Char.toLower)

/-- The switch of `setSeed` (lines 534-562): lower-cased key to
algorithm, `none` for the `default:` throw case. -/
def algOfKey (key : String) : Option Alg :=
  match jsToLower key with
  | "mulberry32" | "mulberry" => some .mulberry32
  | "xoshiro128" | "xoshiro128**" | "xoshiro" => some .xoshiro128
  | "xorshift128" | "xorshift128+" | "xorshift" => some .xorshift128
  | "pcg32" | "pcg" => some .pcg32
  | "sfc32" | "sfc" => some .sfc32
  | "lcg" => some .lcg
  | _ => none

/-- The thirteen recognized algorithm keys (six names plus aliases). -/
def supportedKeys : List String :=
  ["mulberry32", "mulberry", "xoshiro128", "xoshiro128**", "xoshiro",
   "xorshift128", "xorshift128+", "xorshift", "pcg32", "pcg",
   "sfc32", "sfc", "lcg"]

/-- The facade state after a successful `setSeed(seed, algorithm)`
(lines 533-567): a brand-new generator and a cleared normal cache. -/
def mkF (seed : SeedV) (a : Alg) : Facade :=
  { gen := mkGen a seed, spareNormal := none, hasSpareNormal := false }

/-- JS `setSeed(seed, algorithm)` with an explicit algorithm key: throws
`Unknown algorithm` on an unrecognized key, leaving the facade
untouched (the switch throws before any assignment); otherwise
replaces the generator and clears the cache. -/
def setSeedE (seed : SeedV) (key : String) (p : Facade) :
    Except String Unit × Facade :=
  match algOfKey key with
  | none => (.error ("Unknown algorithm: " ++ key), p)
  | some a => (.ok (), mkF seed a)

/-- JS `new PRNG(seed, algorithm)` (lines 526-528): the constructor just
calls `setSeed`. -/
def constructE (seed : SeedV) (key : String) : Except String Facade :=
  match algOfKey key with
  | none => .error ("Unknown algorithm: " ++ key)
  | some a => .ok (mkF seed a)

-- ----- basic generation (lines 576-615) -----

/-- JS `random()`: `this.generator.next()`, a float in `[0, 1)`. -/
def randomF (p : Facade) : ℚ × Facade :=
  ((nextFloatG p.gen).1, { p with gen := (nextFloatG p.gen).2 })

/-- JS `randomInt()`: `this.generator.nextInt()`. -/
def randomIntF (p : Facade) : ℕ × Facade :=
  ((stepInt p.gen).1, { p with gen := (stepInt p.gen).2 })

/-- JS `float(min, max)` (lines 590-592). -/
def floatF (min max : ℚ) (p : Facade) : ℚ × Facade :=
  (min + (randomF p).1 * (max - min), (randomF p).2)

/-- JS `int(min, max)` (lines 597-601): ceil the lower bound, floor the
upper, then `floor(random() * (max - min + 1)) + min`. -/
def intF (min max : ℚ) (p : Facade) : ℤ × Facade :=
  let minC : ℤ := ⌈min⌉
  let maxFl : ℤ := ⌊max⌋
  (⌊(randomF p).1 * ((maxFl : ℚ) - (minC : ℚ) + 1)⌋ + minC, (randomF p).2)

/-- JS `bool(probability)` (lines 606-608). -/
def boolF (probability : ℚ) (p : Facade) : Bool × Facade :=
  ((randomF p).1 < probability, (randomF p).2)

/-- JS `sign(probability)` (lines 613-615). -/
def signF (probability : ℚ) (p : Facade) : ℚ × Facade :=
  (if (boolF probability p).1 then 1 else -1, (boolF probability p).2)

-- ----- distributions needing transcendental math -----

/-- Oracle for the float math library: any function triple stands for
the actual IEEE behaviour of `Math.sqrt` / `Math.log` / `Math.pow`. -/
structure MathLib where
  sqrt : ℚ → ℚ
  log : ℚ → ℚ
  pow : ℚ → ℚ → ℚ

/-- The rejection loop of `normal` (lines 632-637), with fuel for the
almost-surely-terminating `do … while (s >= 1 || s === 0)`. -/
def normalLoop (ml : MathLib) (mean stdDev : ℚ) :
    ℕ → Facade → Option (ℚ × Facade)
  | 0, _ => none
  | fuel + 1, p =>
      let u := (randomF p).1 * 2 - 1
      let p1 := (randomF p).2
      let v := (randomF p1).1 * 2 - 1
      let p2 := (randomF p1).2
      let s := u * u + v * v
      if s ≥ 1 ∨ s = 0 then normalLoop ml mean stdDev fuel p2
      else
        let mul := ml.sqrt ((-2) * ml.log s / s)
        some (u * mul * stdDev + mean,
          { p2 with spareNormal := some (v * mul), hasSpareNormal := true })

/-- JS `normal(mean, stdDev)` (lines 626-644): return the cached spare if
present (clearing only the flag), otherwise run the Box-Muller polar
rejection loop and cache the unused value. -/
def normalF (ml : MathLib) (mean stdDev : ℚ) (p : Facade) (fuel : ℕ) :
    Option (ℚ × Facade) :=
  if p.hasSpareNormal then
    some (p.spareNormal.getD 0 * stdDev + mean, { p with hasSpareNormal := false })
  else normalLoop ml mean stdDev fuel p

/-- The inner `do { x = normal(); v = 1 + c*x } while (v <= 0)` of
`gamma` (lines 725-728). -/
def gammaVLoop (ml : MathLib) (c : ℚ) :
    ℕ → Facade → Option (ℚ × ℚ × Facade)
  | 0, _ => none
  | fuel + 1, p =>
      match normalF ml 0 1 p (fuel + 1) with
      | none => none
      | some (x, p') =>
          let v := 1 + c * x
          if v ≤ 0 then gammaVLoop ml c fuel p'
          else some (x, v, p')

/-- The outer `while (true)` squeeze/acceptance loop of `gamma`
(lines 723-740). -/
def gammaCore (ml : MathLib) (d c scale : ℚ) :
    ℕ → Facade → Option (ℚ × Facade)
  | 0, _ => none
  | fuel + 1, p =>
      match gammaVLoop ml c (fuel + 1) p with
      | none => none
      | some (x, v0, p1) =>
          let v := v0 * v0 * v0
          let u := (randomF p1).1
          let p2 := (randomF p1).2
          if u < 1 - 0.0331 * (x * x) * (x * x) then some (d * v * scale, p2)
          else if ml.log u < 0.5 * x * x + d * (1 - v + ml.log v) then
            some (d * v * scale, p2)
          else gammaCore ml d c scale fuel p2

/-- JS `gamma(shape, scale)` (lines 715-741): Marsaglia-Tsang for
`shape ≥ 1`; for `shape < 1` the boost-and-correct recursion
`gamma(1 + shape, scale) * pow(random(), 1/shape)`. -/
def gammaF (ml : MathLib) :
    ℕ → ℚ → ℚ → Facade → Option (ℚ × Facade)
  | 0, _, _, _ => none
  | fuel + 1, shape, scale, p =>
      if shape < 1 then
        match gammaF ml fuel (1 + shape) scale p with
        | none => none
        | some (g, p') =>
            some (g * ml.pow (randomF p').1 (1 / shape), (randomF p').2)
      else
        let d := shape - 1 / 3
        let c := 1 / ml.sqrt (9 * d)
        gammaCore ml d c scale (fuel + 1) p


/-- JS `beta(alpha, beta)` (lines 698-708): the positivity check throws
before any draw; otherwise the ratio of two gamma draws.  `none` in
the success payload means the rejection loops ran out of fuel. -/
def betaF (ml : MathLib) (fuel : ℕ) (alpha beta : ℚ) (p : Facade) :
    Except String (Option ℚ) × Facade :=
  if alpha ≤ 0 ∨ beta ≤ 0 then
    (.error "Alpha and beta must be positive", p)
  else
    match gammaF ml fuel alpha 1 p with
    | none => (.ok none, p)
    | some (gamma1, p1) =>
        match gammaF ml fuel beta 1 p1 with
        | none => (.ok none, p1)
        | some (gamma2, p2) => (.ok (some (gamma1 / (gamma1 + gamma2))), p2)

-- ----- weighted pick (lines 832-846) -----

/-- The cumulative-subtraction scan of `weightedPick`: subtract each
weight from the scaled draw and return the first item whose running
remainder is `≤ 0`; `none` if the loop falls through. -/
def wpLoop {α : Type} : List (α × ℚ) → ℚ → Option α
  | [], _ => none
  | (x, w) :: rest, r =>
      if r - w ≤ 0 then some x else wpLoop rest (r - w)

/-- JS `weightedPick(items, weights)` (lines 832-846): the length check
throws before any draw; otherwise one `random()` scaled by the total
weight drives the scan, with `items[items.length - 1]` (possibly
`undefined` = `none`) as fallback. -/
def weightedPickF {α : Type} (items : List α) (weights : List ℚ)
    (p : Facade) : Except String (Option α) × Facade :=
  if items.length ≠ weights.length then
    (.error "Items and weights must have same length", p)
  else
    let totalWeight := weights.foldl (· + ·) 0
    match wpLoop (items.zip weights) ((randomF p).1 * totalWeight) with
    | some x => (.ok (some x), (randomF p).2)
    | none => (.ok items.getLast?, (randomF p).2)

-- ----- state management (lines 1052-1100) -----

/-- JS `PRNG.getState` (lines 1052-1061). -/
def getStateF (p : Facade) : SavedState :=
  { algorithm := genName p.gen
    generatorState := getStateG p.gen
    normalCache := { spare := p.spareNormal, hasSpare := p.hasSpareNormal } }

/-- JS `PRNG.setState` (lines 1066-1071): `setSeed(0, savedState.algorithm)`
(which throws on an unknown key, leaving the facade untouched), then
the generator-level `setState`, then both cache fields. -/
def setStateF (savedState : SavedState) (p : Facade) :
    Except String Unit × Facade :=
  match algOfKey savedState.algorithm with
  | none => (.error ("Unknown algorithm: " ++ savedState.algorithm), p)
  | some a =>
      let fresh := mkGen a (.num 0)
      (.ok (),
        { gen := setStateG fresh savedState.generatorState
          spareNormal := savedState.normalCache.spare
          hasSpareNormal := savedState.normalCache.hasSpare })

/-- JS `PRNG.reset` (lines 1076-1080): generator reset plus cleared
normal cache. -/
def resetF (p : Facade) : Facade :=
  { gen := resetG p.gen, spareNormal := none, hasSpareNormal := false }

/-- JS `PRNG.clone` (lines 1085-1091): a scaffold `new PRNG(0, name)`
whose generator is immediately replaced by `generator.clone()`, plus
copies of both cache fields. -/
def cloneF (p : Facade) : Facade :=
  { gen := cloneG p.gen
    spareNormal := p.spareNormal
    hasSpareNormal := p.hasSpareNormal }

/-- JS `PRNG.fork(label)` (lines 1097-1100): draw one raw integer from
the current generator (mutating it), build the derivation string
`name + '_' + drawn + '_' + label`, and construct a new facade from
that string with the same algorithm name.  Returns the child
construction result together with the mutated parent. -/
def forkF (p : Facade) (label : String) : Except String Facade × Facade :=
  let derivedSeed :=
    genName p.gen ++ "_" ++ toString (stepInt p.gen).1 ++ "_" ++ label
  (constructE (.str derivedSeed) (genName p.gen),
    { p with gen := (stepInt p.gen).2 })

-- ----- a draw-call plan, for determinism statements -----

/-- A fixed sequence of draw calls against the facade. -/
inductive Op where
  | random
  | randomInt
  | float (min max : ℚ)
  | int (min max : ℚ)
  | bool (probability : ℚ)
  | sign (probability : ℚ)
  | normal (mean stdDev : ℚ)

/-- Run one draw call, encoding every result as a rational (`bool` as
1/0).  A `normal` whose rejection loop exhausts its fuel yields 0 and
leaves the facade unchanged (the source would still be looping). -/
def runOp (ml : MathLib) (fuel : ℕ) (p : Facade) : Op → ℚ × Facade
  | .random => randomF p
  | .randomInt => (((randomIntF p).1 : ℚ), (randomIntF p).2)
  | .float a b => floatF a b p
  | .int a b => (((intF a b p).1 : ℚ), (intF a b p).2)
  | .bool q => (if (boolF q p).1 then 1 else 0, (boolF q p).2)
  | .sign q => signF q p
  | .normal m s => (normalF ml m s p fuel).getD (0, p)

/-- Run a fixed sequence of draw calls, collecting the values. -/
def runPlan (ml : MathLib) (fuel : ℕ) : List Op → Facade → List ℚ × Facade
  | [], p => ([], p)
  | o :: os, p =>
      ((runOp ml fuel p o).1 ::
          (runPlan ml fuel os (runOp ml fuel p o).2).1,
        (runPlan ml fuel os (runOp ml fuel p o).2).2)

-- ============================================================
-- ARRAY SHUFFLE  (lines 796-802), used by both noise constructors
-- ============================================================

/-- JS `[array[i], array[j]] = [array[j], array[i]]`: read both cells,
then write both (`List.set` is a no-op out of bounds, like the JS
assignment to an index that was never read successfully is never
reached here). -/
def swapL (l : List ℕ) (i j : ℕ) : List ℕ :=
  let vi := l.getD i 0
  let vj := l.getD j 0
  (l.set i vj).set j vi

/-- The body of `shuffle` (lines 797-800), counting the loop variable
`i` down to 1: `j = this.int(0, i)`, then swap positions `i` and `j`.
The draw is in `[0, i]` for every real generator; `Int.toNat` casts
the JS index into the list index. -/
def shuffleGo (p : Facade) (l : List ℕ) : ℕ → List ℕ × Facade
  | 0 => (l, p)
  | i + 1 =>
      shuffleGo ((intF 0 ((i + 1 : ℕ) : ℚ) p).2)
        (swapL l (i + 1) ((intF 0 ((i + 1 : ℕ) : ℚ) p).1).toNat) i

/-- Fisher-Yates `shuffle(array)` (lines 796-802), started at
`array.length - 1`. -/
def shuffleF (p : Facade) (l : List ℕ) : List ℕ × Facade :=
  shuffleGo p l (l.length - 1)

-- ============================================================
-- VALUE NOISE  (lines 1110-1227)
-- ============================================================

/-- A `ValueNoise` instance after construction: the 512-entry
permutation table (256 shuffled entries duplicated, line 1119). -/
structure ValueNoiseT where
  permutation : List ℕ
deriving DecidableEq

/-- The `ValueNoise` constructor (lines 1111-1119): an internally
owned facade seeded with `(seed, 'xoshiro128')` shuffles the identity
table `0..255`, which is then doubled. -/
def mkValueNoise (seed : SeedV) : ValueNoiseT :=
  let rng := mkF seed .xoshiro128
  let p := (shuffleF rng (List.range 256)).1
  { permutation := p ++ p }

/-- JS `_fade(t)` (line 1123): the quintic curve `6t^5 - 15t^4 + 10t^3`
written as in the source. -/
def fade (t : ℚ) : ℚ := t * t * t * (t * (t * 6 - 15) + 10)

/-- JS `_lerp(a, b, t)` (line 1127). -/
def lerp (a b t : ℚ) : ℚ := a + t * (b - a)

/-- JS `_hash(...coords)` (lines 1130-1136): chain
`hash = permutation[(hash + c) & 255]` over the coordinates, then
divide by 255. -/
def hashVN (vn : ValueNoiseT) (coords : List ℕ) : ℚ :=
  ((coords.foldl (fun hash c => vn.permutation.getD ((hash + c) % 256) 0) 0 : ℕ) : ℚ) / 255

/-- JS `Math.floor(x) & 255` for an exact real coordinate: the 32-bit
`&` of the floor equals its residue mod 256. -/
def coordMask (x : ℚ) : ℕ := ((⌊x⌋ : ℤ) % 256).toNat

/-- JS `noise1D(x)` (lines 1141-1151). -/
def noise1D (vn : ValueNoiseT) (x : ℚ) : ℚ :=
  let xi := coordMask x
  let xf : ℚ := x - ⌊x⌋
  let u := fade xf
  lerp (hashVN vn [xi]) (hashVN vn [xi + 1]) u

/-- JS `noise2D(x, y)` (lines 1156-1170). -/
def noise2D (vn : ValueNoiseT) (x y : ℚ) : ℚ :=
  let xi := coordMask x
  let yi := coordMask y
  let xf : ℚ := x - ⌊x⌋
  let yf : ℚ := y - ⌊y⌋
  let u := fade xf
  let v := fade yf
  lerp
    (lerp (hashVN vn [xi, yi]) (hashVN vn [xi + 1, yi]) u)
    (lerp (hashVN vn [xi, yi + 1]) (hashVN vn [xi + 1, yi + 1]) u)
    v

/-- JS `noise3D(x, y, z)` (lines 1175-1200). -/
def noise3D (vn : ValueNoiseT) (x y z : ℚ) : ℚ :=
  let xi := coordMask x
  let yi := coordMask y
  let zi := coordMask z
  let xf : ℚ := x - ⌊x⌋
  let yf : ℚ := y - ⌊y⌋
  let zf : ℚ := z - ⌊z⌋
  let u := fade xf
  let v := fade yf
  let w := fade zf
  lerp
    (lerp
      (lerp (hashVN vn [xi, yi, zi]) (hashVN vn [xi + 1, yi, zi]) u)
      (lerp (hashVN vn [xi, yi + 1, zi]) (hashVN vn [xi + 1, yi + 1, zi]) u)
      v)
    (lerp
      (lerp (hashVN vn [xi, yi, zi + 1]) (hashVN vn [xi + 1, yi, zi + 1]) u)
      (lerp (hashVN vn [xi, yi + 1, zi + 1]) (hashVN vn [xi + 1, yi + 1, zi + 1]) u)
      v)
    w

-- ============================================================
-- SIMPLEX NOISE  (lines 1232-1423)
-- ============================================================

/-- A `SimplexNoise` instance after construction: the two
`Uint8Array(512)` tables. -/
structure SimplexT where
  perm : List ℕ
  permMod12 : List ℕ
deriving DecidableEq

/-- The `SimplexNoise` constructor (lines 1233-1245): shuffle the
identity table with an owned xoshiro-seeded facade, then
`perm[i] = p[i & 255]` (a `Uint8Array` store, coercing mod 256) and
`permMod12[i] = perm[i] % 12` for `i < 512`. -/
def mkSimplex (seed : SeedV) : SimplexT :=
  let rng := mkF seed .xoshiro128
  let p := (shuffleF rng (List.range 256)).1
  let perm := (List.range 512).map (fun i => p.getD (i % 256) 0 % 256)
  { perm := perm, permMod12 := perm.map (· % 12) }

/-- JS `SimplexNoise.grad3` (lines 1247-1251): the 12 edge-midpoint
gradients. -/
def grad3 : List (ℤ × ℤ × ℤ) :=
  [(1,1,0), (-1,1,0), (1,-1,0), (-1,-1,0),
   (1,0,1), (-1,0,1), (1,0,-1), (-1,0,-1),
   (0,1,1), (0,-1,1), (0,1,-1), (0,-1,-1)]

/-- JS `_dot2(g, x, y)` (lines 1253-1255). -/
def dot2 (g : ℤ × ℤ × ℤ) (x y : ℚ) : ℚ := (g.1 : ℚ) * x + (g.2.1 : ℚ) * y

/-- JS `_dot3(g, x, y, z)` (lines 1257-1259). -/
def dot3 (g : ℤ × ℤ × ℤ) (x y z : ℚ) : ℚ :=
  (g.1 : ℚ) * x + (g.2.1 : ℚ) * y + (g.2.2 : ℚ) * z

/-- The corner decomposition computed at the top of `noise2D`
(lines 1264-1292), parameterized by the float value of
`Math.sqrt(3)`. -/
structure Corners2D where
  (ii jj i1 j1 : ℕ)
  (x0 y0 x1 y1 x2 y2 : ℚ)

/-- Skew/unskew and simplex-corner selection of `noise2D`
(lines 1265-1289). -/
def corners2D (sqrt3 : ℚ) (xin yin : ℚ) : Corners2D :=
  let F2 := 0.5 * (sqrt3 - 1)
  let G2 := (3 - sqrt3) / 6
  let s := (xin + yin) * F2
  let i : ℤ := ⌊xin + s⌋
  let j : ℤ := ⌊yin + s⌋
  let t : ℚ := ((i + j : ℤ) : ℚ) * G2
  let x0 := xin - ((i : ℚ) - t)
  let y0 := yin - ((j : ℚ) - t)
  let i1 : ℕ := if x0 > y0 then 1 else 0
  let j1 : ℕ := if x0 > y0 then 0 else 1
  { ii := (i % 256).toNat, jj := (j % 256).toNat, i1 := i1, j1 := j1
    x0 := x0, y0 := y0
    x1 := x0 - (i1 : ℚ) + G2, y1 := y0 - (j1 : ℚ) + G2
    x2 := x0 - 1 + 2 * G2, y2 := y0 - 1 + 2 * G2 }

/-- The three indices into `perm` used by `noise2D` (lines 1290-1292):
`jj`, `jj + j1`, `jj + 1`. -/
def permIdx2D (c : Corners2D) : List ℕ := [c.jj, c.jj + c.j1, c.jj + 1]

/-- The three indices into `permMod12` used by `noise2D`
(lines 1290-1292): `ii + perm[jj]`, `ii + i1 + perm[jj + j1]`,
`ii + 1 + perm[jj + 1]`. -/
def pm12Idx2D (sn : SimplexT) (c : Corners2D) : List ℕ :=
  [c.ii + sn.perm.getD c.jj 0,
   c.ii + c.i1 + sn.perm.getD (c.jj + c.j1) 0,
   c.ii + 1 + sn.perm.getD (c.jj + 1) 0]

/-- The three gradient indices `gi0, gi1, gi2` of `noise2D`
(lines 1290-1292). -/
def gradIdx2D (sn : SimplexT) (c : Corners2D) : List ℕ :=
  (pm12Idx2D sn c).map (fun idx => sn.permMod12.getD idx 0)

/-- One corner contribution of `noise2D` (lines 1294-1313):
`(0.5 - dx^2 - dy^2)^2^2 · (grad · offset)` when the radius term is
non-negative, else 0. -/
def contrib2D (gi : ℕ) (dx dy : ℚ) : ℚ :=
  let t := 0.5 - dx * dx - dy * dy
  if t < 0 then 0
  else (t * t) * (t * t) * dot2 (grad3.getD gi (0, 0, 0)) dx dy

/-- JS `SimplexNoise.noise2D(xin, yin)` (lines 1264-1316). -/
def simplexNoise2D (sn : SimplexT) (sqrt3 : ℚ) (xin yin : ℚ) : ℚ :=
  let c := corners2D sqrt3 xin yin
  match gradIdx2D sn c with
  | [gi0, gi1, gi2] =>
      70 * (contrib2D gi0 c.x0 c.y0 + contrib2D gi1 c.x1 c.y1
            + contrib2D gi2 c.x2 c.y2)
  | _ => 0

/-- The corner decomposition of `noise3D` (lines 1321-1359). -/
structure Corners3D where
  (ii jj kk i1 j1 k1 i2 j2 k2 : ℕ)
  (x0 y0 z0 x1 y1 z1 x2 y2 z2 x3 y3 z3 : ℚ)

/-- Skew/unskew (`F3 = 1/3`, `G3 = 1/6`) and tetrahedron-corner
selection of `noise3D` (lines 1322-1359). -/
def corners3D (xin yin zin : ℚ) : Corners3D :=
  let F3 : ℚ := 1 / 3
  let G3 : ℚ := 1 / 6
  let s := (xin + yin + zin) * F3
  let i : ℤ := ⌊xin + s⌋
  let j : ℤ := ⌊yin + s⌋
  let k : ℤ := ⌊zin + s⌋
  let t : ℚ := ((i + j + k : ℤ) : ℚ) * G3
  let x0 := xin - ((i : ℚ) - t)
  let y0 := yin - ((j : ℚ) - t)
  let z0 := zin - ((k : ℚ) - t)
  let (i1, j1, k1, i2, j2, k2) : ℕ × ℕ × ℕ × ℕ × ℕ × ℕ :=
    if x0 ≥ y0 then
      if y0 ≥ z0 then (1, 0, 0, 1, 1, 0)
      else if x0 ≥ z0 then (1, 0, 0, 1, 0, 1)
      else (0, 0, 1, 1, 0, 1)
    else
      if y0 < z0 then (0, 0, 1, 0, 1, 1)
      else if x0 < z0 then (0, 1, 0, 0, 1, 1)
      else (0, 1, 0, 1, 1, 0)
  { ii := (i % 256).toNat, jj := (j % 256).toNat, kk := (k % 256).toNat
    i1 := i1, j1 := j1, k1 := k1, i2 := i2, j2 := j2, k2 := k2
    x0 := x0, y0 := y0, z0 := z0
    x1 := x0 - (i1 : ℚ) + G3, y1 := y0 - (j1 : ℚ) + G3, z1 := z0 - (k1 : ℚ) + G3
    x2 := x0 - (i2 : ℚ) + 2 * G3, y2 := y0 - (j2 : ℚ) + 2 * G3
    z2 := z0 - (k2 : ℚ) + 2 * G3
    x3 := x0 - 1 + 3 * G3, y3 := y0 - 1 + 3 * G3, z3 := z0 - 1 + 3 * G3 }

/-- The eight indices into `perm` used by `noise3D` (lines 1364-1367):
the inner indices `kk`, `kk + k1`, `kk + k2`, `kk + 1` and the middle
indices `jj + perm[kk]`, `jj + j1 + perm[kk + k1]`,
`jj + j2 + perm[kk + k2]`, `jj + 1 + perm[kk + 1]`. -/
def permIdx3D (sn : SimplexT) (c : Corners3D) : List ℕ :=
  [c.kk, c.kk + c.k1, c.kk + c.k2, c.kk + 1,
   c.jj + sn.perm.getD c.kk 0,
   c.jj + c.j1 + sn.perm.getD (c.kk + c.k1) 0,
   c.jj + c.j2 + sn.perm.getD (c.kk + c.k2) 0,
   c.jj + 1 + sn.perm.getD (c.kk + 1) 0]

/-- The four indices into `permMod12` used by `noise3D`
(lines 1364-1367): `ii (+ i1/i2/1) + perm[middle]`. -/
def pm12Idx3D (sn : SimplexT) (c : Corners3D) : List ℕ :=
  [c.ii + sn.perm.getD (c.jj + sn.perm.getD c.kk 0) 0,
   c.ii + c.i1 + sn.perm.getD (c.jj + c.j1 + sn.perm.getD (c.kk + c.k1) 0) 0,
   c.ii + c.i2 + sn.perm.getD (c.jj + c.j2 + sn.perm.getD (c.kk + c.k2) 0) 0,
   c.ii + 1 + sn.perm.getD (c.jj + 1 + sn.perm.getD (c.kk + 1) 0) 0]

/-- The four gradient indices `gi0..gi3` of `noise3D`
(lines 1364-1367). -/
def gradIdx3D (sn : SimplexT) (c : Corners3D) : List ℕ :=
  (pm12Idx3D sn c).map (fun idx => sn.permMod12.getD idx 0)

/-- One corner contribution of `noise3D` (lines 1369-1395), with
radius threshold 0.6. -/
def contrib3D (gi : ℕ) (dx dy dz : ℚ) : ℚ :=
  let t := 0.6 - dx * dx - dy * dy - dz * dz
  if t < 0 then 0
  else (t * t) * (t * t) * dot3 (grad3.getD gi (0, 0, 0)) dx dy dz

/-- JS `SimplexNoise.noise3D(xin, yin, zin)` (lines 1321-1398). -/
def simplexNoise3D (sn : SimplexT) (xin yin zin : ℚ) : ℚ :=
  let c := corners3D xin yin zin
  match gradIdx3D sn c with
  | [gi0, gi1, gi2, gi3] =>
      32 * (contrib3D gi0 c.x0 c.y0 c.z0 + contrib3D gi1 c.x1 c.y1 c.z1
            + contrib3D gi2 c.x2 c.y2 c.z2 + contrib3D gi3 c.x3 c.y3 c.z3)
  | _ => 0

/-- A degenerate math-library oracle, used only to instantiate
witnesses. -/
def mlZero : MathLib := ⟨fun _ => 0, fun _ => 0, fun _ _ => 0⟩

-- ============================================================
-- SUPPORTING LEMMAS
-- ============================================================

/-- The `name` a generator object carries always resolves through the
`setSeed` switch to the object's own class. -/
theorem algOfKey_genName (g : Gen) : algOfKey (genName g) = some (algOf g) := by
  cases g with
  | broken a => cases a <;> decide
  | _ => (simp only [genName, algOf]; decide)

/-- The canonical class names resolve to their classes. -/
theorem algOfKey_nameOf (a : Alg) : algOfKey (nameOf a) = some a := by
  cases a <;> decide

/-- Restoring a genuine snapshot into a freshly constructed generator
of the same class reproduces the snapshotted object exactly. -/
theorem setStateG_getStateG (g : Gen) (hWF : WF g) :
    setStateG (mkGen (algOf g) (.num 0)) (getStateG g) = g := by
  cases g with
  | mulberry st sd => rfl
  | xoshiro a b c d os =>
      obtain ⟨h1, h2, h3, h4⟩ := hWF
      show Gen.xoshiro (a % M32) (b % M32) (c % M32) (d % M32) os = _
      rw [Nat.mod_eq_of_lt h1, Nat.mod_eq_of_lt h2, Nat.mod_eq_of_lt h3,
        Nat.mod_eq_of_lt h4]
  | xorshift a b c d os =>
      obtain ⟨h1, h2, h3, h4⟩ := hWF
      show Gen.xorshift (a % M32) (b % M32) (c % M32) (d % M32) os = _
      rw [Nat.mod_eq_of_lt h1, Nat.mod_eq_of_lt h2, Nat.mod_eq_of_lt h3,
        Nat.mod_eq_of_lt h4]
  | pcg hi lo ih il os oseq => rfl
  | sfc a b c k os => rfl
  | lcg st sd a c m => rfl
  | broken a => exact absurd hWF (by simp [WF])

/-- JS `clone` reproduces the source object exactly on reachable
states. -/
theorem cloneG_eq (g : Gen) (hWF : WF g) : cloneG g = g := by
  cases g with
  | mulberry st sd =>
      show Gen.mulberry st (sd % M32) = _
      rw [Nat.mod_eq_of_lt hWF]
  | lcg st sd a c m =>
      show Gen.lcg st (sd % M32) a c m = _
      rw [Nat.mod_eq_of_lt hWF.1]
  | broken a => exact absurd hWF (by simp [WF])
  | _ => rfl

/-- A draw leaves the seed material `reset` re-derives from
untouched. -/
theorem resetG_stepInt (g : Gen) : resetG (stepInt g).2 = resetG g := by
  cases g <;> rfl

/-- JS `reset` of a freshly constructed generator is the identity: the
constructor and `reset` derive the same state from the same seed. -/
theorem resetG_mkGen (a : Alg) (s : SeedV) : resetG (mkGen a s) = mkGen a s := by
  cases a <;> rfl

/-- JS `next()` advances the same underlying state as `nextInt()`. -/
theorem nextFloatG_snd (g : Gen) : (nextFloatG g).2 = (stepInt g).2 := by
  cases g <;> rfl

-- ============================================================
-- C1: two-run determinism of construction plus drawing
-- ============================================================

/-- C1.  For every seed (string or integer) and every supported
algorithm key, two PRNG facade instances constructed independently
from the same `(seed, algorithm)` pair are equal and produce identical
value sequences for any fixed sequence of draw calls. -/
theorem c1_two_run_determinism (seed : SeedV) (key : String)
    (f1 f2 : Facade) (ml : MathLib) (fuel : ℕ) (plan : List Op)
    (h1 : constructE seed key = .ok f1)
    (h2 : constructE seed key = .ok f2) :
    f1 = f2 ∧ runPlan ml fuel plan f1 = runPlan ml fuel plan f2 := by
  have h : f1 = f2 := by
    have := h1.symm.trans h2
    exact Except.ok.inj this
  exact ⟨h, by rw [h]⟩

/-- Witness for C1 at the concrete pair `("same-seed", "sfc32")` and
a concrete draw plan. -/
theorem c1_witness :
    mkF (.str "same-seed") .sfc32 = mkF (.str "same-seed") .sfc32 ∧
    runPlan mlZero 4 [Op.random, Op.int 5 15, Op.randomInt]
        (mkF (.str "same-seed") .sfc32) =
      runPlan mlZero 4 [Op.random, Op.int 5 15, Op.randomInt]
        (mkF (.str "same-seed") .sfc32) :=
  c1_two_run_determinism (.str "same-seed") "sfc32" _ _ mlZero 4
    [Op.random, Op.int 5 15, Op.randomInt] rfl rfl

-- ============================================================
-- C2: setState(getState()) round trip
-- ============================================================

/-- C2.  For every facade state (any algorithm, any normal cache),
`setState(getState())` succeeds and restores the exact facade state,
so any sequence of draws after the round trip — including resumption
of the cached spare normal — equals the draws without it. -/
theorem c2_state_roundtrip (p q : Facade) (hWF : WF p.gen) :
    (setStateF (getStateF p) q).1 = .ok () ∧
    (setStateF (getStateF p) q).2 = p ∧
    ∀ ml fuel plan,
      runPlan ml fuel plan (setStateF (getStateF p) q).2 =
        runPlan ml fuel plan p := by
  have hkey : algOfKey (getStateF p).algorithm = some (algOf p.gen) :=
    algOfKey_genName p.gen
  have hsnap : (getStateF p).generatorState = getStateG p.gen := rfl
  have hrt : (setStateF (getStateF p) q).2 = p := by
    simp only [setStateF, hkey, hsnap, setStateG_getStateG p.gen hWF]
    rfl
  refine ⟨by simp only [setStateF, hkey], hrt, fun ml fuel plan => by rw [hrt]⟩

/-- Witness for C2 at a concrete pcg32 facade carrying a cached spare
normal. -/
theorem c2_witness :
    (setStateF
        (getStateF ⟨mkGen .pcg32 (.num 7), some (1/2), true⟩)
        (mkF (.num 0) .mulberry32)).2 =
      ⟨mkGen .pcg32 (.num 7), some (1/2), true⟩ :=
  (c2_state_roundtrip ⟨mkGen .pcg32 (.num 7), some (1/2), true⟩
    (mkF (.num 0) .mulberry32) (by decide)).2.1

-- ============================================================
-- C9: clone equality and independence
-- ============================================================

/-- C9.  `clone()` produces an instance whose state equals the
source's state exactly (generator state and normal cache), hence its
next K draws equal the source's next K draws for every K; the model
is pure, so drawing from either facade value cannot alter the other,
matching the source's deep field-by-field copies. -/
theorem c9_clone_eq (p : Facade) (hWF : WF p.gen) :
    cloneF p = p ∧
    ∀ ml fuel plan,
      runPlan ml fuel plan (cloneF p) = runPlan ml fuel plan p := by
  have h : cloneF p = p := by
    show Facade.mk (cloneG p.gen) p.spareNormal p.hasSpareNormal = p
    rw [cloneG_eq p.gen hWF]
  exact ⟨h, fun ml fuel plan => by rw [h]⟩

/-- Witness for C9 at a concrete xoshiro facade with a cached spare. -/
theorem c9_witness :
    cloneF ⟨mkGen .xoshiro128 (.str "state-test"), some 2, true⟩ =
      ⟨mkGen .xoshiro128 (.str "state-test"), some 2, true⟩ :=
  (c9_clone_eq ⟨mkGen .xoshiro128 (.str "state-test"), some 2, true⟩
    (by decide)).1

-- ============================================================
-- C3: reset semantics
-- ============================================================

/-- A `random()` draw leaves the reset target unchanged. -/
theorem resetG_randomF (p : Facade) :
    resetG ((randomF p).2).gen = resetG p.gen := by
  show resetG (nextFloatG p.gen).2 = resetG p.gen
  rw [nextFloatG_snd, resetG_stepInt]

/-- The Box-Muller rejection loop draws only via `random()`, so it
too leaves the
reset target unchanged. -/
theorem resetG_normalLoop (ml : MathLib) (mean std : ℚ) :
    ∀ (fuel : ℕ) (p : Facade) (r : ℚ × Facade),
      normalLoop ml mean std fuel p = some r →
      resetG r.2.gen = resetG p.gen := by
  intro fuel
  induction fuel with
  | zero => intro p r h; simp [normalLoop] at h
  | succ f ih =>
      intro p r h
      unfold normalLoop at h
      simp only at h
      have hp2 : resetG ((randomF (randomF p).2).2).gen = resetG p.gen :=
        (resetG_randomF (randomF p).2).trans (resetG_randomF p)
      split at h
      · exact (ih _ r h).trans hp2
      · cases h
        simpa using hp2

/-- JS `normal()` (spare path or Box-Muller loop) leaves the reset
target unchanged. -/
theorem resetG_normalF (ml : MathLib) (mean std : ℚ) (fuel : ℕ)
    (p : Facade) :
    resetG (((normalF ml mean std p fuel).getD (0, p)).2).gen =
      resetG p.gen := by
  unfold normalF
  by_cases h : p.hasSpareNormal
  · simp [h]
  · simp only [h, Bool.false_eq_true, if_false]
    rcases hl : normalLoop ml mean std fuel p with _ | r
    · simp
    · simpa using resetG_normalLoop ml mean std fuel p r hl

/-- Every draw call leaves the reset target unchanged. -/
theorem resetG_runOp (ml : MathLib) (fuel : ℕ) (p : Facade) (o : Op) :
    resetG ((runOp ml fuel p o).2).gen = resetG p.gen := by
  cases o with
  | random => exact resetG_randomF p
  | randomInt =>
      show resetG (stepInt p.gen).2 = resetG p.gen
      exact resetG_stepInt p.gen
  | float a b => exact resetG_randomF p
  | int a b => exact resetG_randomF p
  | bool q => exact resetG_randomF p
  | sign q => exact resetG_randomF p
  | normal m s => exact resetG_normalF ml m s fuel p

/-- A whole plan of draw calls leaves the reset target unchanged. -/
theorem resetG_runPlan (ml : MathLib) (fuel : ℕ) :
    ∀ (plan : List Op) (p : Facade),
      resetG ((runPlan ml fuel plan p).2).gen = resetG p.gen := by
  intro plan
  induction plan with
  | nil => intro p; rfl
  | cons o os ih =>
      intro p
      show resetG ((runPlan ml fuel os (runOp ml fuel p o).2).2).gen =
        resetG p.gen
      rw [ih (runOp ml fuel p o).2, resetG_runOp]

/-- C3, counterexample to the claim as stated: construct from seed 1
(mulberry32), reseed to seed 2 via `setSeed`, then `reset()`.  The
facade does not return to the construction state from seed 1, and its
next `random()` differs from the first `random()` observed from
construction — `reset` restores the seed retained by the *current*
generator, which the reseed replaced. -/
theorem c3_counterexample :
    (randomIntF (resetF
        (setSeedE (.num 2) "mulberry32" (mkF (.num 1) .mulberry32)).2)).1 ≠
      (randomIntF (mkF (.num 1) .mulberry32)).1 ∧
    resetF (setSeedE (.num 2) "mulberry32" (mkF (.num 1) .mulberry32)).2 ≠
      mkF (.num 1) .mulberry32 := by
  constructor <;> decide

/-- C3, amended.  `reset()` restores the facade to the state derived
from the generator's *retained* seed: after any draws with no
intervening reseed this is the construction state, but after a
`setSeed` to a new seed it is the state constructed from that newest
seed (the reseed is not discarded). -/
theorem c3_reset_restores_latest_seed (ml : MathLib) (fuel : ℕ)
    (plan1 plan2 : List Op) (s s' : SeedV) (a a' : Alg) :
    resetF ((runPlan ml fuel plan1 (mkF s a)).2) = mkF s a ∧
    resetF ((runPlan ml fuel plan2
        ((setSeedE s' (nameOf a')
          ((runPlan ml fuel plan1 (mkF s a)).2)).2)).2) = mkF s' a' := by
  have key : ∀ (plan : List Op) (s0 : SeedV) (a0 : Alg),
      resetF ((runPlan ml fuel plan (mkF s0 a0)).2) = mkF s0 a0 := by
    intro plan s0 a0
    show Facade.mk (resetG ((runPlan ml fuel plan (mkF s0 a0)).2).gen)
        none false = mkF s0 a0
    rw [resetG_runPlan ml fuel plan (mkF s0 a0)]
    show Facade.mk (resetG (mkGen a0 s0)) none false = mkF s0 a0
    rw [resetG_mkGen]
    rfl
  refine ⟨key plan1 s a, ?_⟩
  have hset : (setSeedE s' (nameOf a')
      ((runPlan ml fuel plan1 (mkF s a)).2)).2 = mkF s' a' := by
    simp [setSeedE, algOfKey_nameOf]
  rw [hset]
  exact key plan2 s' a'

-- ============================================================
-- C5: fork
-- ============================================================

/-- C5.  `fork(label)` advances the parent's generator by exactly one
raw draw and changes nothing else in the parent, and the child is a
brand-new facade built with the parent's algorithm from the seed
string `name + '_' + drawnInt + '_' + label` — a deterministic
function of (algorithm name, drawn integer, label). -/
theorem c5_fork (p : Facade) (label : String) (_hWF : WF p.gen) :
    forkF p label =
      (Except.ok (mkF
          (.str (genName p.gen ++ "_" ++ toString (stepInt p.gen).1
            ++ "_" ++ label))
          (algOf p.gen)),
        { p with gen := (stepInt p.gen).2 }) := by
  simp only [forkF, constructE, algOfKey_genName]

/-- Witness for C5 at a concrete sfc32 facade and label. -/
theorem c5_witness :
    WF (mkF (.num 5) .sfc32).gen ∧
    forkF (mkF (.num 5) .sfc32) "terrain" =
      (Except.ok (mkF
          (.str (genName (mkF (.num 5) .sfc32).gen ++ "_" ++
            toString (stepInt (mkF (.num 5) .sfc32).gen).1 ++ "_" ++ "terrain"))
          (algOf (mkF (.num 5) .sfc32).gen)),
        { mkF (.num 5) .sfc32 with
            gen := (stepInt (mkF (.num 5) .sfc32).gen).2 }) :=
  ⟨by decide, c5_fork (mkF (.num 5) .sfc32) "terrain" (by decide)⟩

-- ============================================================
-- C4: setState payload validation
-- ============================================================

/-- The `setSeed` switch rejects exactly the keys outside the
recognized list. -/
theorem algOfKey_none_iff (key : String) :
    algOfKey key = none ↔ jsToLower key ∉ supportedKeys := by
  unfold algOfKey supportedKeys
  split <;> simp_all

/-- C4, counterexample to the claim as stated: a payload whose
`generatorState` was produced by the xorshift128+ generator but whose
`algorithm` field says `xoshiro128**` is accepted by `setState`
without any error — the resulting facade silently runs xoshiro128**
on the foreign state words. -/
theorem c4_counterexample :
    snapAlg (getStateG (mkGen .xorshift128 (.num 1))) = .xorshift128 ∧
    (setStateF
        ⟨"xoshiro128**", getStateG (mkGen .xorshift128 (.num 1)),
          ⟨none, false⟩⟩
        (mkF (.num 0) .xoshiro128)).1.isOk = true ∧
    algOf ((setStateF
        ⟨"xoshiro128**", getStateG (mkGen .xorshift128 (.num 1)),
          ⟨none, false⟩⟩
        (mkF (.num 0) .xoshiro128)).2).gen = .xoshiro128 := by
  refine ⟨rfl, by decide, by decide⟩

/-- C4, amended.  `setState` raises an error exactly when the
payload's `algorithm` key is unrecognized (leaving the facade
untouched); with a recognized key the payload is accepted without any
validation of `generatorState`, even when that snapshot was produced
by a different algorithm or is malformed — the bit-generator
`setState` methods perform no checks. -/
theorem c4_setstate_error_iff (sv : SavedState) (q : Facade) :
    ((setStateF sv q).1.isOk = false ↔ jsToLower sv.algorithm ∉ supportedKeys) ∧
    ((setStateF sv q).1.isOk = false → (setStateF sv q).2 = q) := by
  unfold setStateF
  rcases h : algOfKey sv.algorithm with _ | a
  · have hmem := (algOfKey_none_iff sv.algorithm).mp h
    simp [hmem, Except.isOk, Except.toBool]
  · have hmem : ¬ (jsToLower sv.algorithm ∉ supportedKeys) := by
      intro hc
      rw [(algOfKey_none_iff sv.algorithm).mpr hc] at h
      cases h
    simp [hmem, Except.isOk, Except.toBool]

/-- Witness for C4's amended claim at a concrete unrecognized key. -/
theorem c4_witness :
    (setStateF ⟨"nope", Snap.mulberry 0 0, ⟨none, false⟩⟩
        (mkF (.num 3) .lcg)).2 = mkF (.num 3) .lcg :=
  (c4_setstate_error_iff ⟨"nope", Snap.mulberry 0 0, ⟨none, false⟩⟩
    (mkF (.num 3) .lcg)).2 (by decide)

-- ============================================================
-- C7: the three configuration errors
-- ============================================================

/-- C7.  Each configuration-error condition raises exactly when it
occurs, and the facade is untouched on error (the check precedes any
draw): `setSeed` errs iff the lower-cased key is outside the
thirteen recognized names, `weightedPick` errs iff the item and
weight lists have different lengths, and `beta` errs iff a shape
parameter is non-positive. -/
theorem c7_config_errors (p : Facade) :
    (∀ (seed : SeedV) (key : String),
        ((setSeedE seed key p).1.isOk = false ↔
          jsToLower key ∉ supportedKeys) ∧
        ((setSeedE seed key p).1.isOk = false → (setSeedE seed key p).2 = p)) ∧
    (∀ (α : Type) (items : List α) (weights : List ℚ),
        ((weightedPickF items weights p).1.isOk = false ↔
          items.length ≠ weights.length) ∧
        ((weightedPickF items weights p).1.isOk = false →
          (weightedPickF items weights p).2 = p)) ∧
    (∀ (ml : MathLib) (fuel : ℕ) (alpha beta : ℚ),
        ((betaF ml fuel alpha beta p).1.isOk = false ↔
          (alpha ≤ 0 ∨ beta ≤ 0)) ∧
        ((betaF ml fuel alpha beta p).1.isOk = false →
          (betaF ml fuel alpha beta p).2 = p)) := by
  refine ⟨?_, ?_, ?_⟩
  · intro seed key
    unfold setSeedE
    rcases h : algOfKey key with _ | a
    · have hmem := (algOfKey_none_iff key).mp h
      simp [hmem, Except.isOk, Except.toBool]
    · have hmem : ¬ (jsToLower key ∉ supportedKeys) := by
        intro hc
        rw [(algOfKey_none_iff key).mpr hc] at h
        cases h
      simp [hmem, Except.isOk, Except.toBool]
  · intro α items weights
    unfold weightedPickF
    by_cases h : items.length = weights.length
    · simp only [h, ne_eq, not_true_eq_false, if_false]
      rcases hw : wpLoop (items.zip weights)
          ((randomF p).1 * weights.foldl (· + ·) 0) with _ | x <;>
        simp [hw, h, Except.isOk, Except.toBool]
    · simp [h, Except.isOk, Except.toBool]
  · intro ml fuel alpha beta
    unfold betaF
    by_cases h : alpha ≤ 0 ∨ beta ≤ 0
    · simp [h, Except.isOk, Except.toBool]
    · rcases h1 : gammaF ml fuel alpha 1 p with _ | g1
      · simp [h, h1, Except.isOk, Except.toBool]
      · rcases h2 : gammaF ml fuel beta 1 g1.2 with _ | g2 <;>
          simp [h, h1, h2, Except.isOk, Except.toBool]

/-- Witness for C7: each error condition triggered at a concrete
input on a concrete lcg facade, with the facade returned unchanged. -/
theorem c7_witness :
    (setSeedE (.num 0) "nope" (mkF (.num 3) .lcg)).2 = mkF (.num 3) .lcg ∧
    (weightedPickF [(1 : ℚ)] [1, 2] (mkF (.num 3) .lcg)).2 =
      mkF (.num 3) .lcg ∧
    (betaF mlZero 5 0 1 (mkF (.num 3) .lcg)).2 = mkF (.num 3) .lcg :=
  ⟨((c7_config_errors (mkF (.num 3) .lcg)).1 (.num 0) "nope").2 (by decide),
    ((c7_config_errors (mkF (.num 3) .lcg)).2.1 ℚ [(1 : ℚ)] [1, 2]).2
      (by decide),
    ((c7_config_errors (mkF (.num 3) .lcg)).2.2 mlZero 5 0 1).2 (by decide)⟩

-- ============================================================
-- C6: int(min, max) bounds
-- ============================================================

/-- Quotients of a natural below its positive denominator lie in
`[0, 1)`. -/
theorem div_bounds (v m : ℕ) (hv : v < m) :
    0 ≤ (v : ℚ) / (m : ℚ) ∧ (v : ℚ) / (m : ℚ) < 1 := by
  have hm : (0 : ℚ) < (m : ℚ) := by
    exact_mod_cast Nat.lt_of_le_of_lt (Nat.zero_le v) hv
  constructor
  · positivity
  · rw [div_lt_one hm]
    exact_mod_cast hv

/-- Every generator's `next()` lies in `[0, 1)` on reachable states:
each class's `nextInt` ends in `>>> 0` (reduction mod 2^32) and
divides by 2^32, except LCG which keeps its state below its own
positive modulus `m` and divides by `m`. -/
theorem nextFloatG_bounds (g : Gen) (hWF : WF g) :
    0 ≤ (nextFloatG g).1 ∧ (nextFloatG g).1 < 1 := by
  have hM : 0 < M32 := by norm_num [M32]
  cases g with
  | mulberry st sd => exact div_bounds _ _ (Nat.mod_lt _ hM)
  | xoshiro a b c d os => exact div_bounds _ _ (Nat.mod_lt _ hM)
  | xorshift a b c d os => exact div_bounds _ _ (Nat.mod_lt _ hM)
  | pcg hi lo ih il os oseq => exact div_bounds _ _ (Nat.mod_lt _ hM)
  | sfc a b c k os => exact div_bounds _ _ (Nat.mod_lt _ hM)
  | lcg st sd a c m =>
      apply div_bounds
      exact Nat.lt_of_le_of_lt (Nat.mod_le _ _) (Nat.mod_lt _ hWF.2)
  | broken alg => exact absurd hWF (by simp [WF])

/-- C6.  Whenever `ceil(min) ≤ floor(max)`, `int(min, max)` returns an
integer in `[ceil(min), floor(max)]`, both ends inclusive, computed
as `floor(random() * (max - min + 1)) + min` after rounding the
bounds. -/
theorem c6_int_range (min max : ℚ) (p : Facade) (hWF : WF p.gen)
    (h : ⌈min⌉ ≤ ⌊max⌋) :
    ⌈min⌉ ≤ (intF min max p).1 ∧ (intF min max p).1 ≤ ⌊max⌋ := by
  obtain ⟨hr0, hr1⟩ := nextFloatG_bounds p.gen hWF
  have hr0' : 0 ≤ (randomF p).1 := hr0
  have hr1' : (randomF p).1 < 1 := hr1
  have h1 : (intF min max p).1 =
      ⌊(randomF p).1 * ((⌊max⌋ : ℚ) - (⌈min⌉ : ℚ) + 1)⌋ + ⌈min⌉ := rfl
  have hq : ((⌊max⌋ : ℚ) - (⌈min⌉ : ℚ) + 1) = ((⌊max⌋ - ⌈min⌉ + 1 : ℤ) : ℚ) := by
    push_cast
    ring
  have hnpos : (0 : ℤ) < ⌊max⌋ - ⌈min⌉ + 1 := by omega
  have hnq : (0 : ℚ) < ((⌊max⌋ - ⌈min⌉ + 1 : ℤ) : ℚ) := by exact_mod_cast hnpos
  rw [h1, hq]
  constructor
  · have hfl : (0 : ℤ) ≤ ⌊(randomF p).1 * ((⌊max⌋ - ⌈min⌉ + 1 : ℤ) : ℚ)⌋ :=
      Int.floor_nonneg.mpr (mul_nonneg hr0' (le_of_lt hnq))
    omega
  · have hlt : (randomF p).1 * ((⌊max⌋ - ⌈min⌉ + 1 : ℤ) : ℚ) <
        ((⌊max⌋ - ⌈min⌉ + 1 : ℤ) : ℚ) := by nlinarith
    have hfl : ⌊(randomF p).1 * ((⌊max⌋ - ⌈min⌉ + 1 : ℤ) : ℚ)⌋ <
        ⌊max⌋ - ⌈min⌉ + 1 := Int.floor_lt.mpr hlt
    omega

/-- Witness for C6: `int(5, 15)` on a concrete xoshiro facade. -/
theorem c6_witness :
    ⌈(5 : ℚ)⌉ ≤ (intF 5 15 (mkF (.str "test-seed") .xoshiro128)).1 ∧
    (intF 5 15 (mkF (.str "test-seed") .xoshiro128)).1 ≤ ⌊(15 : ℚ)⌋ :=
  c6_int_range 5 15 (mkF (.str "test-seed") .xoshiro128) (by decide)
    (by norm_num)

-- ============================================================
-- C8: value noise output range [0, 1]
-- ============================================================

/-- Out-of-range reads fall back to 0, so a uniform bound on a list's
entries bounds every `getD`. -/
theorem getD_lt {l : List ℕ} {n : ℕ} (h : ∀ v ∈ l, v < n) (h0 : 0 < n)
    (i : ℕ) : l.getD i 0 < n := by
  rcases hg : l[i]? with _ | v
  · simpa [List.getD_eq_getElem?_getD, hg] using h0
  · have hv : v ∈ l := List.getElem?_mem hg
    simpa [List.getD_eq_getElem?_getD, hg] using h v hv

/-- A swap writes only values read (with fallback 0) from the list,
so it preserves a uniform bound. -/
theorem swapL_lt {l : List ℕ} {n : ℕ} (h : ∀ v ∈ l, v < n) (h0 : 0 < n)
    (i j : ℕ) : ∀ v ∈ swapL l i j, v < n := by
  intro v hv
  unfold swapL at hv
  rcases List.mem_or_eq_of_mem_set hv with hv1 | rfl
  · rcases List.mem_or_eq_of_mem_set hv1 with hv2 | rfl
    · exact h _ hv2
    · exact getD_lt h h0 j
  · exact getD_lt h h0 i

/-- The Fisher-Yates loop preserves a uniform bound on the entries. -/
theorem shuffleGo_lt {n : ℕ} (h0 : 0 < n) :
    ∀ (k : ℕ) (p : Facade) (l : List ℕ), (∀ v ∈ l, v < n) →
      ∀ v ∈ (shuffleGo p l k).1, v < n := by
  intro k
  induction k with
  | zero => intro p l h v hv; exact h v hv
  | succ i ih =>
      intro p l h v hv
      simp only [shuffleGo] at hv
      exact ih _ _ (swapL_lt h h0 _ _) v hv

/-- Every entry of a constructed `ValueNoise` permutation table is
below 256 (the table is a shuffle of `0..255`, doubled). -/
theorem mkValueNoise_lt (seed : SeedV) :
    ∀ v ∈ (mkValueNoise seed).permutation, v < 256 := by
  intro v hv
  unfold mkValueNoise at hv
  simp only at hv
  have hr : ∀ u ∈ List.range 256, u < 256 := fun u hu => List.mem_range.mp hu
  have hb := shuffleGo_lt (n := 256) (by norm_num)
    ((List.range 256).length - 1) (mkF seed .xoshiro128) (List.range 256) hr
  rcases List.mem_append.mp hv with h | h <;> exact hb v h

/-- The chained permutation lookup of `_hash` stays at or below
255. -/
theorem hash_fold_le (vn : ValueNoiseT)
    (hp : ∀ v ∈ vn.permutation, v < 256) :
    ∀ (coords : List ℕ) (h0 : ℕ), h0 ≤ 255 →
      coords.foldl
        (fun hash c => vn.permutation.getD ((hash + c) % 256) 0) h0 ≤ 255 := by
  intro coords
  induction coords with
  | nil => intro h0 hh; exact hh
  | cons c cs ih =>
      intro h0 hh
      simp only [List.foldl]
      apply ih
      have := getD_lt hp (by norm_num) ((h0 + c) % 256)
      omega

/-- JS `_hash` returns a value in `[0, 1]`. -/
theorem hashVN_bounds (vn : ValueNoiseT)
    (hp : ∀ v ∈ vn.permutation, v < 256) (coords : List ℕ) :
    0 ≤ hashVN vn coords ∧ hashVN vn coords ≤ 1 := by
  unfold hashVN
  constructor
  · positivity
  · rw [div_le_one (by norm_num)]
    exact_mod_cast hash_fold_le vn hp coords 0 (by norm_num)

/-- The quintic fade curve maps `[0, 1]` into `[0, 1]`. -/
theorem fade_bounds (t : ℚ) (h0 : 0 ≤ t) (h1 : t ≤ 1) :
    0 ≤ fade t ∧ fade t ≤ 1 := by
  unfold fade
  have h1t : (0 : ℚ) ≤ 1 - t := sub_nonneg.mpr h1
  have hq : (0 : ℚ) ≤ 6 * t * t - 15 * t + 10 := by
    nlinarith [sq_nonneg (4 * t - 5)]
  have key1 : (0 : ℚ) ≤ t * t * t * (6 * t * t - 15 * t + 10) :=
    mul_nonneg (mul_nonneg (mul_nonneg h0 h0) h0) hq
  have hq2 : (0 : ℚ) ≤ 6 * t * t + 3 * t + 1 := by nlinarith [sq_nonneg t]
  have key2 : (0 : ℚ) ≤ (1 - t) * (1 - t) * (1 - t) * (6 * t * t + 3 * t + 1) :=
    mul_nonneg (mul_nonneg (mul_nonneg h1t h1t) h1t) hq2
  constructor
  · nlinarith [key1]
  · nlinarith [key2]

/-- Linear interpolation of `[0, 1]` values with a `[0, 1]` weight
stays in `[0, 1]`. -/
theorem lerp_bounds (a b t : ℚ) (ha : 0 ≤ a ∧ a ≤ 1) (hb : 0 ≤ b ∧ b ≤ 1)
    (ht : 0 ≤ t ∧ t ≤ 1) : 0 ≤ lerp a b t ∧ lerp a b t ≤ 1 := by
  obtain ⟨ha0, ha1⟩ := ha
  obtain ⟨hb0, hb1⟩ := hb
  obtain ⟨ht0, ht1⟩ := ht
  unfold lerp
  constructor
  · nlinarith [mul_nonneg (sub_nonneg.mpr ht1) ha0, mul_nonneg ht0 hb0]
  · nlinarith [mul_nonneg (sub_nonneg.mpr ht1) (sub_nonneg.mpr ha1),
      mul_nonneg ht0 (sub_nonneg.mpr hb1)]

/-- The fractional part `x - Math.floor(x)` lies in `[0, 1]`. -/
theorem fract_bounds (x : ℚ) : 0 ≤ x - (⌊x⌋ : ℚ) ∧ x - (⌊x⌋ : ℚ) ≤ 1 := by
  constructor
  · have := Int.floor_le x
    linarith
  · have := Int.lt_floor_add_one x
    linarith

/-- C8.  For every seed and all coordinates, the outputs of
`noise1D`, `noise2D` and `noise3D` of a constructed `ValueNoise` lie
in `[0, 1]`: each lattice-corner hash is a table entry divided by 255
and the quintic-fade multilinear interpolation cannot leave the
interval. -/
theorem c8_value_noise_range (seed : SeedV) (x y z : ℚ) :
    (0 ≤ noise1D (mkValueNoise seed) x ∧ noise1D (mkValueNoise seed) x ≤ 1) ∧
    (0 ≤ noise2D (mkValueNoise seed) x y ∧
      noise2D (mkValueNoise seed) x y ≤ 1) ∧
    (0 ≤ noise3D (mkValueNoise seed) x y z ∧
      noise3D (mkValueNoise seed) x y z ≤ 1) := by
  have hp := mkValueNoise_lt seed
  have hh := hashVN_bounds (mkValueNoise seed) hp
  have hfr : ∀ w : ℚ, 0 ≤ fade (w - (⌊w⌋ : ℚ)) ∧ fade (w - (⌊w⌋ : ℚ)) ≤ 1 :=
    fun w => fade_bounds _ (fract_bounds w).1 (fract_bounds w).2
  refine ⟨?_, ?_, ?_⟩
  · exact lerp_bounds _ _ _ (hh _) (hh _) (hfr x)
  · exact lerp_bounds _ _ _
      (lerp_bounds _ _ _ (hh _) (hh _) (hfr x))
      (lerp_bounds _ _ _ (hh _) (hh _) (hfr x))
      (hfr y)
  · exact lerp_bounds _ _ _
      (lerp_bounds _ _ _
        (lerp_bounds _ _ _ (hh _) (hh _) (hfr x))
        (lerp_bounds _ _ _ (hh _) (hh _) (hfr x))
        (hfr y))
      (lerp_bounds _ _ _
        (lerp_bounds _ _ _ (hh _) (hh _) (hfr x))
        (lerp_bounds _ _ _ (hh _) (hh _) (hfr x))
        (hfr y))
      (hfr z)

-- ============================================================
-- C10: simplex noise table lookups stay in bounds
-- ============================================================

/-- Every entry of a constructed `SimplexNoise.perm` table is below
256 (it is stored through a `Uint8Array` from values of the shuffled
identity table). -/
theorem mkSimplex_perm_lt (seed : SeedV) :
    ∀ v ∈ (mkSimplex seed).perm, v < 256 := by
  intro v hv
  unfold mkSimplex at hv
  simp only at hv
  rcases List.mem_map.mp hv with ⟨i, _, rfl⟩
  exact Nat.mod_lt _ (by norm_num)

/-- Every entry of a constructed `permMod12` table is below 12. -/
theorem mkSimplex_pm12_lt (seed : SeedV) :
    ∀ v ∈ (mkSimplex seed).permMod12, v < 12 := by
  intro v hv
  unfold mkSimplex at hv
  simp only at hv
  rcases List.mem_map.mp hv with ⟨u, _, rfl⟩
  exact Nat.mod_lt _ (by norm_num)

/-- A JS `& 255` of an integer coordinate is below 256. -/
theorem intMask_lt (z : ℤ) : (z % 256).toNat < 256 := by
  have h1 : 0 ≤ z % 256 := Int.emod_nonneg z (by norm_num)
  have h2 : z % 256 < 256 := Int.emod_lt_of_pos z (by norm_num)
  omega

/-- The masked lattice coordinates of `noise2D` are below 256 and the
corner offsets are at most 1. -/
theorem corners2D_bounds (sqrt3 x y : ℚ) :
    (corners2D sqrt3 x y).ii < 256 ∧ (corners2D sqrt3 x y).jj < 256 ∧
    (corners2D sqrt3 x y).i1 ≤ 1 ∧ (corners2D sqrt3 x y).j1 ≤ 1 := by
  unfold corners2D
  refine ⟨intMask_lt _, intMask_lt _, ?_, ?_⟩ <;> dsimp only <;> split <;>
    norm_num

/-- The masked lattice coordinates of `noise3D` are below 256 and the
corner offsets are at most 1. -/
theorem corners3D_bounds (x y z : ℚ) :
    (corners3D x y z).ii < 256 ∧ (corners3D x y z).jj < 256 ∧
    (corners3D x y z).kk < 256 ∧
    (corners3D x y z).i1 ≤ 1 ∧ (corners3D x y z).j1 ≤ 1 ∧
    (corners3D x y z).k1 ≤ 1 ∧ (corners3D x y z).i2 ≤ 1 ∧
    (corners3D x y z).j2 ≤ 1 ∧ (corners3D x y z).k2 ≤ 1 := by
  unfold corners3D
  refine ⟨intMask_lt _, intMask_lt _, intMask_lt _, ?_, ?_, ?_, ?_, ?_, ?_⟩ <;>
    dsimp only <;> split <;> (try split) <;> (try split) <;> norm_num

set_option maxRecDepth 4096

/-- C10.  For every seed, every float value of `Math.sqrt(3)`, and all
input coordinates, every index `noise2D` and `noise3D` use into
`perm` and `permMod12` lies in `[0, 511]`, and every gradient index
taken from `permMod12` lies in `[0, 11]`, so the `grad3` lookup never
leaves the 12-entry table. -/
theorem c10_simplex_index_bounds (seed : SeedV) (sqrt3 x y u v w : ℚ) :
    (∀ i ∈ permIdx2D (corners2D sqrt3 x y), i < 512) ∧
    (∀ i ∈ pm12Idx2D (mkSimplex seed) (corners2D sqrt3 x y), i < 512) ∧
    (∀ g ∈ gradIdx2D (mkSimplex seed) (corners2D sqrt3 x y), g < 12) ∧
    (∀ i ∈ permIdx3D (mkSimplex seed) (corners3D u v w), i < 512) ∧
    (∀ i ∈ pm12Idx3D (mkSimplex seed) (corners3D u v w), i < 512) ∧
    (∀ g ∈ gradIdx3D (mkSimplex seed) (corners3D u v w), g < 12) := by
  have hpg : ∀ i, (mkSimplex seed).perm.getD i 0 < 256 :=
    fun i => getD_lt (mkSimplex_perm_lt seed) (by norm_num) i
  have hpm : ∀ i, (mkSimplex seed).permMod12.getD i 0 < 12 :=
    fun i => getD_lt (mkSimplex_pm12_lt seed) (by norm_num) i
  obtain ⟨h2ii, h2jj, h2i1, h2j1⟩ := corners2D_bounds sqrt3 x y
  obtain ⟨h3ii, h3jj, h3kk, h3i1, h3j1, h3k1, h3i2, h3j2, h3k2⟩ :=
    corners3D_bounds u v w
  refine ⟨?_, ?_, ?_, ?_, ?_, ?_⟩
  · intro i hi
    simp only [permIdx2D, List.mem_cons, List.not_mem_nil, or_false] at hi
    rcases hi with rfl | rfl | rfl <;> omega
  · intro i hi
    simp only [pm12Idx2D, List.mem_cons, List.not_mem_nil, or_false] at hi
    rcases hi with rfl | rfl | rfl
    · have := hpg (corners2D sqrt3 x y).jj
      omega
    · have := hpg ((corners2D sqrt3 x y).jj + (corners2D sqrt3 x y).j1)
      omega
    · have := hpg ((corners2D sqrt3 x y).jj + 1)
      omega
  · intro g hg
    rcases List.mem_map.mp hg with ⟨idx, _, rfl⟩
    exact hpm idx
  · intro i hi
    simp only [permIdx3D, List.mem_cons, List.not_mem_nil, or_false] at hi
    rcases hi with rfl | rfl | rfl | rfl | rfl | rfl | rfl | rfl
    · omega
    · omega
    · omega
    · omega
    · have := hpg (corners3D u v w).kk
      omega
    · have := hpg ((corners3D u v w).kk + (corners3D u v w).k1)
      omega
    · have := hpg ((corners3D u v w).kk + (corners3D u v w).k2)
      omega
    · have := hpg ((corners3D u v w).kk + 1)
      omega
  · intro i hi
    simp only [pm12Idx3D, List.mem_cons, List.not_mem_nil, or_false] at hi
    rcases hi with rfl | rfl | rfl | rfl
    · have := hpg ((corners3D u v w).jj + (mkSimplex seed).perm.getD
        (corners3D u v w).kk 0)
      omega
    · have := hpg ((corners3D u v w).jj + (corners3D u v w).j1 +
        (mkSimplex seed).perm.getD
          ((corners3D u v w).kk + (corners3D u v w).k1) 0)
      omega
    · have := hpg ((corners3D u v w).jj + (corners3D u v w).j2 +
        (mkSimplex seed).perm.getD
          ((corners3D u v w).kk + (corners3D u v w).k2) 0)
      omega
    · have := hpg ((corners3D u v w).jj + 1 +
        (mkSimplex seed).perm.getD ((corners3D u v w).kk + 1) 0)
      omega
  · intro g hg
    rcases List.mem_map.mp hg with ⟨idx, _, rfl⟩
    exact hpm idx

end SeedForge
